import Mathlib

/-!
Shallow embedding of `src/pkg/util/lb/lb.go` from the
`loadbalancer-controller` repository, together with proofs about the
claims of its specification.

The embedding follows the Go source function by function:

* `v1` models the fragment of the Kubernetes `v1.Pod` object model that
  `ComputePodStatus` reads (spec containers, container runtime states,
  restart counts, deletion timestamp, phase and reason).
* `lbapi` models the fragment of the load-balancer API types the file
  manipulates (`PodStatus`, `PodStatuses`, `ProxyStatus`,
  `IpvsdrProviderStatus`).  `PodStatus` fields are exactly the ones the
  Go code writes; the aggregate-only scalar fields of the wrappers are
  not in this repository and are modelled from the spec.
* Top-level functions keep their Go names: `ComputePodStatus`,
  `PodStatusesEqual`, `ProxyStatusEqual`, `IpvsdrProviderStatusEqual`,
  `CalculateReplicas`, `SplitNamespaceAndNameByDot`.

Go strings are `String` (and `List Char` for the dot-splitting helper,
whose reasoning is character-by-character), Go `int32` counters are
`Nat`/`Int` (no overflow is reachable for the claims considered), Go
pointers are `Option`, and `reflect.DeepEqual` is decidable structural
equality.
-/

namespace v1

/-- One declared container in a pod spec (`pod.Spec.Containers`); only its
presence matters to `ComputePodStatus`, which takes the length of the list. -/
structure Container where
  name : String
  deriving DecidableEq, Repr

/-- `v1.ContainerStateWaiting`. -/
structure ContainerStateWaiting where
  reason : String
  deriving DecidableEq, Repr

/-- `v1.ContainerStateRunning` (its fields are not read by the code). -/
structure ContainerStateRunning where
  deriving DecidableEq, Repr

/-- `v1.ContainerStateTerminated`: the fields `ComputePodStatus` reads. -/
structure ContainerStateTerminated where
  exitCode : Int
  signal : Int
  reason : String
  deriving DecidableEq, Repr

/-- `v1.ContainerState`: three optional sub-states (Go nil-able pointers). -/
structure ContainerState where
  waiting : Option ContainerStateWaiting
  running : Option ContainerStateRunning
  terminated : Option ContainerStateTerminated
  deriving DecidableEq, Repr

/-- `v1.ContainerStatus`: the fields `ComputePodStatus` reads. -/
structure ContainerStatus where
  ready : Bool
  restartCount : Int
  state : ContainerState
  deriving DecidableEq, Repr

/-- The fragment of `v1.PodSpec` read by the code. -/
structure PodSpec where
  containers : List Container
  nodeName : String
  deriving DecidableEq, Repr

/-- The fragment of `v1.PodStatus` (the pod-side status) read by the code. -/
structure PodStatus where
  phase : String
  reason : String
  containerStatuses : List ContainerStatus
  deriving DecidableEq, Repr

/-- The fragment of `v1.Pod` read by `ComputePodStatus`.  The deletion
timestamp is an opaque value; only nil-ness and presence matter. -/
structure Pod where
  name : String
  deletionTimestamp : Option Int
  spec : PodSpec
  status : PodStatus
  deriving DecidableEq, Repr

end v1

namespace lbapi

/-- `lbapi.PodStatus`: the record `ComputePodStatus` builds, with exactly
the fields the Go code writes (`Name`, `Ready`, `NodeName`,
`ReadyContainers`, `TotalContainers`, `Reason`). -/
structure PodStatus where
  name : String
  ready : Bool
  nodeName : String
  readyContainers : Nat
  totalContainers : Nat
  reason : String
  deriving DecidableEq, Repr

/-- Modelled from the spec: `lbapi.PodStatuses` is not part of this
repository; per the spec it is "an aggregate holding a sequence of
`WorkerStatus` plus aggregate-only fields (e.g. overall phase counters)".
The three counters stand for those aggregate-only scalar fields. -/
structure PodStatuses where
  replicas : Int
  totalReplicas : Int
  readyReplicas : Int
  statuses : List PodStatus
  deriving DecidableEq, Repr

/-- Modelled from the spec: `lbapi.ProxyStatus` is not part of this
repository; per the spec it "embeds one `WorkerStatusSet` plus
kind-specific scalar fields (e.g. revision counters)". -/
structure ProxyStatus where
  podStatuses : PodStatuses
  revision : Int
  deriving DecidableEq, Repr

/-- Modelled from the spec: `lbapi.IpvsdrProviderStatus` is not part of
this repository; per the spec it "embeds one `WorkerStatusSet` plus
kind-specific scalar fields (e.g. virtual-IP assignment)". -/
structure IpvsdrProviderStatus where
  podStatuses : PodStatuses
  vip : String
  deriving DecidableEq, Repr

end lbapi

/-- The sentinel `NodeUnreachablePodReason = "NodeLost"` from the Go file. -/
def NodeUnreachablePodReason : String := "NodeLost"

/-- State threaded through the container scan of `ComputePodStatus`:
the Go local variables `restarts`, `readyContainers` and `reason`. -/
structure ScanState where
  restarts : Int
  readyContainers : Nat
  reason : String
  deriving DecidableEq, Repr

/-- One iteration of the container loop in `ComputePodStatus`, acting on a
single `v1.ContainerStatus` exactly as the Go if/else-if chain does. -/
def scanStep (s : ScanState) (c : v1.ContainerStatus) : ScanState :=
  let s := { s with restarts := s.restarts + c.restartCount }
  match c.state.waiting with
  | some w =>
    if w.reason ≠ "" then
      { s with reason := w.reason }
    else
      scanStepAfterWaiting s c
  | none => scanStepAfterWaiting s c
where
  /-- The `else if` branches after the waiting test fails. -/
  scanStepAfterWaiting (s : ScanState) (c : v1.ContainerStatus) : ScanState :=
    match c.state.terminated with
    | some t =>
      if t.reason ≠ "" then
        { s with reason := t.reason }
      else if t.signal ≠ 0 then
        { s with reason := "Signal:" ++ toString t.signal }
      else
        { s with reason := "ExitCode:" ++ toString t.exitCode }
    | none =>
      if c.ready ∧ c.state.running.isSome then
        { s with readyContainers := s.readyContainers + 1 }
      else
        s

/-- `ComputePodStatus` from the Go file.  The Go loop walks
`pod.Status.ContainerStatuses` from the last index down to index 0, which
is a left fold over the reversed list. -/
def ComputePodStatus (pod : v1.Pod) : lbapi.PodStatus :=
  let totalContainers := pod.spec.containers.length
  let reason0 := if pod.status.reason ≠ "" then pod.status.reason else pod.status.phase
  let scan := pod.status.containerStatuses.reverse.foldl scanStep
    { restarts := 0, readyContainers := 0, reason := reason0 }
  let ready := scan.readyContainers = totalContainers
  let ready := if pod.deletionTimestamp ≠ none then false else ready
  let reason :=
    if pod.deletionTimestamp ≠ none then
      if pod.status.reason = NodeUnreachablePodReason then "Unknown" else "Terminating"
    else scan.reason
  { name := pod.name
    ready := ready
    nodeName := pod.spec.nodeName
    readyContainers := scan.readyContainers
    totalContainers := totalContainers
    reason := reason }

/-- Body of the inner loop of `PodStatusesEqual`: look for the first entry
of `bStatus` whose `Name` equals `as.Name` (the Go loop breaks at the first
name match) and compare the matched pair with `reflect.DeepEqual`. -/
def matchByName (bStatus : List lbapi.PodStatus) (as : lbapi.PodStatus) : Bool :=
  match bStatus.find? (fun bs => as.name == bs.name) with
  | some bs => decide (as = bs)
  | none => false

/-- `PodStatusesEqual` from the Go file: length check, then deep equality of
everything but the `Statuses` slice (Go nils the slices before
`reflect.DeepEqual`; `[]` models nil), then the by-name scan. -/
def PodStatusesEqual (a b : lbapi.PodStatuses) : Bool :=
  if a.statuses.length ≠ b.statuses.length then false
  else if { a with statuses := [] } ≠ { b with statuses := [] } then false
  else a.statuses.all (matchByName b.statuses)

/-- The Go zero value `lbapi.PodStatuses{}` assigned before `DeepEqual`. -/
def zeroPodStatuses : lbapi.PodStatuses :=
  { replicas := 0, totalReplicas := 0, readyReplicas := 0, statuses := [] }

/-- `ProxyStatusEqual` from the Go file. -/
def ProxyStatusEqual (a b : lbapi.ProxyStatus) : Bool :=
  if !PodStatusesEqual a.podStatuses b.podStatuses then false
  else decide ({ a with podStatuses := zeroPodStatuses } =
               { b with podStatuses := zeroPodStatuses })

/-- `IpvsdrProviderStatusEqual` from the Go file. -/
def IpvsdrProviderStatusEqual (a b : lbapi.IpvsdrProviderStatus) : Bool :=
  if !PodStatusesEqual a.podStatuses b.podStatuses then false
  else decide ({ a with podStatuses := zeroPodStatuses } =
               { b with podStatuses := zeroPodStatuses })

/-- The fragment of `lbapi.LoadBalancer` read by `CalculateReplicas`:
`lb.Spec.Nodes.Replicas` is a nil-able `*int32`, `lb.Spec.Nodes.Names`
a slice of node names. -/
structure NodesSpec where
  replicas : Option Int
  names : List String
  deriving DecidableEq, Repr

/-- `lb.Spec` fragment. -/
structure LoadBalancerSpec where
  nodes : NodesSpec
  deriving DecidableEq, Repr

/-- `lbapi.LoadBalancer` fragment. -/
structure LoadBalancer where
  spec : LoadBalancerSpec
  deriving DecidableEq, Repr

/-- `CalculateReplicas` from the Go file: default replicas from the
nil-able pointer, then the explicit node-name list overrides. -/
def CalculateReplicas (lb : LoadBalancer) : Int × Bool :=
  let replicas : Int :=
    match lb.spec.nodes.replicas with
    | some r => r
    | none => 0
  if lb.spec.nodes.names.length ≠ 0 then
    ((lb.spec.nodes.names.length : Int), true)
  else
    (replicas, false)

/-- Go `strings.Split(value, ".")` for the one-character separator, on the
character list of the string: splitting an empty input gives `[[]]`, each
dot ends the current segment. -/
def splitOnDot : List Char → List (List Char)
  | [] => [[]]
  | c :: rest =>
    if c = '.' then [] :: splitOnDot rest
    else
      match splitOnDot rest with
      | [] => [[c]]
      | s :: ss => (c :: s) :: ss

/-- `SplitNamespaceAndNameByDot` from the Go file: split on dots and demand
exactly two parts; `none` models the `unexpected format` error return. -/
def SplitNamespaceAndNameByDot (value : List Char) :
    Option (List Char × List Char) :=
  match splitOnDot value with
  | [a, b] => some (a, b)
  | _ => none

/-- Does this container set `reason` during the scan (one of the first three
branches of the Go if/else-if chain applies)? -/
def setsReason (c : v1.ContainerStatus) : Bool :=
  match c.state.waiting with
  | some w => if w.reason ≠ "" then true else c.state.terminated.isSome
  | none => c.state.terminated.isSome

/-- The reason this container would write during the scan (meaningful when
`setsReason` holds). -/
def reasonOf (c : v1.ContainerStatus) : String :=
  match c.state.waiting with
  | some w => if w.reason ≠ "" then w.reason else reasonOfTerminated c
  | none => reasonOfTerminated c
where
  /-- The reason contributed by the terminated sub-state. -/
  reasonOfTerminated (c : v1.ContainerStatus) : String :=
    match c.state.terminated with
    | some t =>
      if t.reason ≠ "" then t.reason
      else if t.signal ≠ 0 then "Signal:" ++ toString t.signal
      else "ExitCode:" ++ toString t.exitCode
    | none => ""

/-- Fixture: a container observed waiting with reason `"A"`. -/
def containerWaitingA : v1.ContainerStatus :=
  { ready := false
    restartCount := 0
    state := { waiting := some { reason := "A" }, running := none, terminated := none } }

/-- Fixture: a container observed waiting with reason `"B"`. -/
def containerWaitingB : v1.ContainerStatus :=
  { ready := false
    restartCount := 0
    state := { waiting := some { reason := "B" }, running := none, terminated := none } }

/-- Fixture: a ready container observed running. -/
def containerReadyRunning : v1.ContainerStatus :=
  { ready := true
    restartCount := 0
    state := { waiting := none, running := some {}, terminated := none } }

/-- Fixture: a pod whose spec declares no containers while one observed
container state reports ready-and-running. -/
def podExtraStatus : v1.Pod :=
  { name := "p"
    deletionTimestamp := none
    spec := { containers := [], nodeName := "n1" }
    status := { phase := "Running", reason := "", containerStatuses := [containerReadyRunning] } }

/-- Fixture: a pod with two waiting containers, reasons `"A"` then `"B"` in
observed order. -/
def podWaitingPair : v1.Pod :=
  { name := "p"
    deletionTimestamp := none
    spec := { containers := [{ name := "c1" }, { name := "c2" }], nodeName := "n1" }
    status := { phase := "Running", reason := "", containerStatuses := [containerWaitingA, containerWaitingB] } }

/-- Fixture: a pod with zero declared containers, no observed container
states, and a non-null deletion timestamp. -/
def podZeroDeleted : v1.Pod :=
  { name := "p"
    deletionTimestamp := some 0
    spec := { containers := [], nodeName := "n1" }
    status := { phase := "Running", reason := "", containerStatuses := [] } }

/-- Fixture: a deleted pod whose stored reason is the unreachable sentinel. -/
def podDeletedNodeLost : v1.Pod :=
  { name := "p"
    deletionTimestamp := some 7
    spec := { containers := [{ name := "c1" }], nodeName := "n2" }
    status := { phase := "Running", reason := "NodeLost", containerStatuses := [containerReadyRunning] } }

/-- Fixture: a pod with zero declared containers, no observed container
states and no deletion marker. -/
def podZeroClean : v1.Pod :=
  { name := "p"
    deletionTimestamp := none
    spec := { containers := [], nodeName := "n1" }
    status := { phase := "Running", reason := "", containerStatuses := [] } }

/-- Fixture: `podWaitingPair` with different restart counts on both
containers and everything else unchanged. -/
def podWaitingPairRestarts : v1.Pod :=
  { name := "p"
    deletionTimestamp := none
    spec := { containers := [{ name := "c1" }, { name := "c2" }], nodeName := "n1" }
    status :=
      { phase := "Running"
        reason := ""
        containerStatuses :=
          [{ containerWaitingA with restartCount := 3 },
           { containerWaitingB with restartCount := 9 }] } }

/-- The worker names of an aggregate's status list are pairwise distinct
(the spec's "no two entries share `Name` within one set" invariant). -/
def nodupNames (l : List lbapi.PodStatus) : Prop :=
  (l.map lbapi.PodStatus.name).Nodup

/-- `w'` is `w` with exactly one of the `Ready`, `Reason` or `NodeName`
fields changed to a different value and every other field unchanged. -/
def singleFieldChange (w w' : lbapi.PodStatus) : Prop :=
  w'.name = w.name ∧ w'.readyContainers = w.readyContainers ∧
  w'.totalContainers = w.totalContainers ∧
  ((w'.ready ≠ w.ready ∧ w'.reason = w.reason ∧ w'.nodeName = w.nodeName) ∨
   (w'.ready = w.ready ∧ w'.reason ≠ w.reason ∧ w'.nodeName = w.nodeName) ∨
   (w'.ready = w.ready ∧ w'.reason = w.reason ∧ w'.nodeName ≠ w.nodeName))

/-- Two raw worker records that agree everywhere except possibly in the
per-container restart counts. -/
def sameButRestarts (p q : v1.Pod) : Prop :=
  p.name = q.name ∧ p.deletionTimestamp = q.deletionTimestamp ∧ p.spec = q.spec ∧
  p.status.phase = q.status.phase ∧ p.status.reason = q.status.reason ∧
  List.Forall₂ (fun c d => c.ready = d.ready ∧ c.state = d.state)
    p.status.containerStatuses q.status.containerStatuses

/-- Fixture: a worker status named `n1`. -/
def workerN1 : lbapi.PodStatus :=
  { name := "n1", ready := true, nodeName := "x", readyContainers := 1, totalContainers := 1, reason := "R" }

/-- Fixture: a worker status named `n2`. -/
def workerN2 : lbapi.PodStatus :=
  { name := "n2", ready := false, nodeName := "y", readyContainers := 0, totalContainers := 2, reason := "S" }

/-- Fixture: a worker status sharing `workerN1`'s name with different
`Ready` and `Reason`. -/
def workerN1Clash : lbapi.PodStatus :=
  { name := "n1", ready := false, nodeName := "x", readyContainers := 1, totalContainers := 1, reason := "Q" }

/-- Fixture: `workerN1Clash` with its `Ready` field changed. -/
def workerN1ClashReady : lbapi.PodStatus :=
  { name := "n1", ready := true, nodeName := "x", readyContainers := 1, totalContainers := 1, reason := "Q" }

/-- Fixture: an aggregate with two distinctly-named workers. -/
def aggTwo : lbapi.PodStatuses :=
  { replicas := 2, totalReplicas := 2, readyReplicas := 1, statuses := [workerN1, workerN2] }

/-- Fixture: `aggTwo` with its worker list reversed. -/
def aggTwoSwapped : lbapi.PodStatuses :=
  { replicas := 2, totalReplicas := 2, readyReplicas := 1, statuses := [workerN2, workerN1] }

/-- Fixture: an aggregate listing the same worker twice. -/
def aggDupLeft : lbapi.PodStatuses :=
  { replicas := 0, totalReplicas := 0, readyReplicas := 0, statuses := [workerN1, workerN1] }

/-- Fixture: an aggregate with two same-named workers whose second entry is
never inspected by the by-name scan of the other side. -/
def aggDupRight : lbapi.PodStatuses :=
  { replicas := 0, totalReplicas := 0, readyReplicas := 0, statuses := [workerN1, workerN1Clash] }

/-- Fixture: `aggDupRight` after changing the second worker's `Ready`. -/
def aggDupRightChanged : lbapi.PodStatuses :=
  { replicas := 0, totalReplicas := 0, readyReplicas := 0, statuses := [workerN1, workerN1ClashReady] }

/-- Fixture: a proxy aggregate whose worker list repeats a name with
different content. -/
def proxyDup : lbapi.ProxyStatus :=
  { podStatuses := aggDupRight, revision := 0 }

/-- Fixture: a well-formed proxy aggregate. -/
def proxyTwo : lbapi.ProxyStatus :=
  { podStatuses := aggTwo, revision := 5 }

/-- Fixture: a well-formed provider aggregate. -/
def ipvsdrTwo : lbapi.IpvsdrProviderStatus :=
  { podStatuses := aggTwo, vip := "10.0.0.1" }

example :
    ComputePodStatus
      { name := "p"
        deletionTimestamp := none
        spec := { containers := [{ name := "c1" }, { name := "c2" }], nodeName := "n1" }
        status :=
          { phase := "Running"
            reason := ""
            containerStatuses :=
              [{ ready := false
                 restartCount := 2
                 state :=
                   { waiting := some { reason := "ImagePullBackOff" }
                     running := none
                     terminated := none } },
               { ready := true
                 restartCount := 0
                 state :=
                   { waiting := none
                     running := some {}
                     terminated := none } }] } } =
      { name := "p"
        ready := false
        nodeName := "n1"
        readyContainers := 1
        totalContainers := 2
        reason := "ImagePullBackOff" } := by
  decide

/-! ### Lemmas about the container scan -/

/-- One scan step increments the ready-container count by at most one. -/
theorem scanStep_readyContainers_le (s : ScanState) (c : v1.ContainerStatus) :
    (scanStep s c).readyContainers ≤ s.readyContainers + 1 := by
  unfold scanStep scanStep.scanStepAfterWaiting
  repeat' split
  all_goals simp

/-- The ready-container count after folding the scan over a list grows by at
most the length of the list. -/
theorem foldl_scanStep_readyContainers_le (l : List v1.ContainerStatus) (s : ScanState) :
    (l.foldl scanStep s).readyContainers ≤ s.readyContainers + l.length := by
  induction l generalizing s with
  | nil => simp
  | cons c rest ih =>
    simp only [List.foldl_cons, List.length_cons]
    calc (rest.foldl scanStep (scanStep s c)).readyContainers
        ≤ (scanStep s c).readyContainers + rest.length := ih _
      _ ≤ s.readyContainers + 1 + rest.length := by
          have := scanStep_readyContainers_le s c
          omega
      _ = s.readyContainers + (rest.length + 1) := by omega

/-! ### C1: ready containers vs total containers -/

/-- C1 (counterexample): the claim "for every worker input,
`ReadyContainers <= TotalContainers`" is false as stated: a pod whose spec
declares zero containers while one observed container state is
ready-and-running yields `ReadyContainers = 1 > 0 = TotalContainers`. -/
theorem C1_counterexample :
    ¬ ((ComputePodStatus podExtraStatus).readyContainers ≤
       (ComputePodStatus podExtraStatus).totalContainers) := by
  decide

/-- C1 (amended): for every worker input with at most as many observed
container runtime states as declared containers, the derived status
satisfies `ReadyContainers <= TotalContainers`. -/
theorem C1_theorem (pod : v1.Pod)
    (h : pod.status.containerStatuses.length ≤ pod.spec.containers.length) :
    (ComputePodStatus pod).readyContainers ≤ (ComputePodStatus pod).totalContainers := by
  have hle := foldl_scanStep_readyContainers_le pod.status.containerStatuses.reverse
    { restarts := 0
      readyContainers := 0
      reason := if pod.status.reason ≠ "" then pod.status.reason else pod.status.phase }
  rw [List.length_reverse] at hle
  dsimp only at hle
  simp only [ComputePodStatus]
  omega

/-- C1 (witness): the amended bound at a concrete two-container pod. -/
theorem C1_witness :
    podWaitingPair.status.containerStatuses.length ≤ podWaitingPair.spec.containers.length ∧
    (ComputePodStatus podWaitingPair).readyContainers ≤
      (ComputePodStatus podWaitingPair).totalContainers :=
  ⟨by decide, C1_theorem podWaitingPair (by decide)⟩

/-! ### C2: which container determines the final reason -/

/-- One scan step rewrites the running reason exactly when the container
hits one of the three reason-setting branches, and then writes that
container's reason. -/
theorem scanStep_reason (s : ScanState) (c : v1.ContainerStatus) :
    (scanStep s c).reason = if setsReason c then reasonOf c else s.reason := by
  unfold scanStep scanStep.scanStepAfterWaiting setsReason reasonOf reasonOf.reasonOfTerminated
  cases hw : c.state.waiting <;> cases ht : c.state.terminated <;>
    repeat' split
  all_goals simp_all

/-- Folding the scan over a list leaves as reason the contribution of the
last reason-setting container of the list (the first one of the reversed
list), or the initial reason when no container sets one. -/
theorem foldl_scanStep_reason (l : List v1.ContainerStatus) (s : ScanState) :
    (l.foldl scanStep s).reason =
      match l.reverse.find? setsReason with
      | some c => reasonOf c
      | none => s.reason := by
  induction l generalizing s with
  | nil => simp
  | cons c rest ih =>
    simp only [List.foldl_cons, List.reverse_cons]
    rw [ih, List.find?_append]
    cases h : rest.reverse.find? setsReason with
    | some c' => simp
    | none =>
      by_cases hc : setsReason c <;> simp [scanStep_reason, hc]

/-- C2 (counterexample): with two waiting containers whose reasons are
`"A"` (observed first) and `"B"` (observed second), the derived reason is
`"A"`, not `"B"`: the later container in the observed list does not win. -/
theorem C2_counterexample :
    (ComputePodStatus podWaitingPair).reason = "A" ∧
    (ComputePodStatus podWaitingPair).reason ≠ "B" := by
  decide

/-- C2 (amended): the scan visits the observed container list in reverse
order, so with the last write winning, the final reason of a worker without
deletion marker is the one of the first applicable container in observed
order (the container the scan visits last); when no container applies, the
initial phase/reason value remains. -/
theorem C2_theorem (pod : v1.Pod) (h : pod.deletionTimestamp = none) :
    (ComputePodStatus pod).reason =
      match pod.status.containerStatuses.find? setsReason with
      | some c => reasonOf c
      | none => if pod.status.reason ≠ "" then pod.status.reason else pod.status.phase := by
  simp only [ComputePodStatus, h, ne_eq, not_true_eq_false, if_false, ite_false]
  rw [foldl_scanStep_reason, List.reverse_reverse]

/-- C2 (witness): the amended characterization at the two-waiting-container
pod, where the first observed container (reason `"A"`) wins. -/
theorem C2_witness :
    (ComputePodStatus podWaitingPair).reason =
      match podWaitingPair.status.containerStatuses.find? setsReason with
      | some c => reasonOf c
      | none =>
        if podWaitingPair.status.reason ≠ "" then podWaitingPair.status.reason
        else podWaitingPair.status.phase :=
  C2_theorem podWaitingPair rfl

/-! ### C3: zero declared containers -/

/-- C3 (counterexample): "zero declared containers implies `Ready = true`"
is false as stated: a deleted pod with zero containers, and a pod with zero
declared containers but a ready-running observed container state, both
yield `Ready = false`. -/
theorem C3_counterexample :
    podZeroDeleted.spec.containers = [] ∧
    (ComputePodStatus podZeroDeleted).ready = false ∧
    podExtraStatus.spec.containers = [] ∧
    (ComputePodStatus podExtraStatus).ready = false := by
  decide

/-- C3 (amended): a worker whose spec declares zero containers, with no
observed container runtime states and no deletion marker, derives
`Ready = true`. -/
theorem C3_theorem (pod : v1.Pod)
    (hc : pod.spec.containers = [])
    (hs : pod.status.containerStatuses = [])
    (hd : pod.deletionTimestamp = none) :
    (ComputePodStatus pod).ready = true := by
  simp [ComputePodStatus, hc, hs, hd]

/-- C3 (witness): the amended statement at the empty clean pod. -/
theorem C3_witness :
    podZeroClean.spec.containers = [] ∧
    podZeroClean.status.containerStatuses = [] ∧
    podZeroClean.deletionTimestamp = none ∧
    (ComputePodStatus podZeroClean).ready = true :=
  ⟨rfl, rfl, rfl, C3_theorem podZeroClean rfl rfl rfl⟩

/-! ### C4: the deletion-marker override -/

/-- C4: for every worker with a non-null deletion marker the derived status
has `Ready = false`, its `Reason` is `"Unknown"` exactly when the worker's
stored status reason equals the `NodeLost` sentinel, and otherwise the
`Reason` is `"Terminating"`. -/
theorem C4_theorem (pod : v1.Pod) (h : pod.deletionTimestamp ≠ none) :
    (ComputePodStatus pod).ready = false ∧
    ((ComputePodStatus pod).reason = "Unknown" ↔
      pod.status.reason = NodeUnreachablePodReason) ∧
    (pod.status.reason ≠ NodeUnreachablePodReason →
      (ComputePodStatus pod).reason = "Terminating") := by
  refine ⟨by simp [ComputePodStatus, h], ?_, fun hr => by simp [ComputePodStatus, h, hr]⟩
  by_cases hr : pod.status.reason = NodeUnreachablePodReason
  · simp [ComputePodStatus, h, hr]
  · simp [ComputePodStatus, h, hr]

/-- C4 (witness): the override at a deleted pod stored as `NodeLost`. -/
theorem C4_witness :
    podDeletedNodeLost.deletionTimestamp ≠ none ∧
    (ComputePodStatus podDeletedNodeLost).ready = false ∧
    ((ComputePodStatus podDeletedNodeLost).reason = "Unknown" ↔
      podDeletedNodeLost.status.reason = NodeUnreachablePodReason) :=
  ⟨by decide, (C4_theorem podDeletedNodeLost (by decide)).1,
    (C4_theorem podDeletedNodeLost (by decide)).2.1⟩

/-! ### C10: restart counts never influence the output -/

/-- One scan step on containers that agree except in restart count maps
states agreeing on `readyContainers`/`reason` to states agreeing on
`readyContainers`/`reason` (the accumulated restart sum may diverge). -/
theorem scanStep_restart_congr (s s' : ScanState) (c d : v1.ContainerStatus)
    (hr : c.ready = d.ready) (hs : c.state = d.state)
    (h1 : s.readyContainers = s'.readyContainers) (h2 : s.reason = s'.reason) :
    (scanStep s c).readyContainers = (scanStep s' d).readyContainers ∧
    (scanStep s c).reason = (scanStep s' d).reason := by
  unfold scanStep scanStep.scanStepAfterWaiting
  rw [← hr, ← hs]
  cases hw : c.state.waiting <;> cases ht : c.state.terminated <;>
    repeat' split
  all_goals simp_all

/-- The scan fold preserves agreement of `readyContainers` and `reason`
across lists that agree except in restart counts. -/
theorem foldl_scanStep_restart_congr :
    ∀ {l l' : List v1.ContainerStatus},
      List.Forall₂ (fun c d => c.ready = d.ready ∧ c.state = d.state) l l' →
      ∀ s s' : ScanState, s.readyContainers = s'.readyContainers → s.reason = s'.reason →
        (l.foldl scanStep s).readyContainers = (l'.foldl scanStep s').readyContainers ∧
        (l.foldl scanStep s).reason = (l'.foldl scanStep s').reason := by
  intro l l' h
  induction h with
  | nil => intro s s' h1 h2; exact ⟨h1, h2⟩
  | cons hcd _ ih =>
    intro s s' h1 h2
    simp only [List.foldl_cons]
    have hstep := scanStep_restart_congr s s' _ _ hcd.1 hcd.2 h1 h2
    exact ih _ _ hstep.1 hstep.2

/-- C10: two worker inputs differing only in the restart counts of their
container runtime states derive identical `WorkerStatus` outputs. -/
theorem C10_theorem (p q : v1.Pod) (h : sameButRestarts p q) :
    ComputePodStatus p = ComputePodStatus q := by
  obtain ⟨hn, hd, hs, hph, hr, hf⟩ := h
  have hrev : List.Forall₂ (fun c d => c.ready = d.ready ∧ c.state = d.state)
      p.status.containerStatuses.reverse q.status.containerStatuses.reverse :=
    List.forall₂_reverse_iff.mpr hf
  simp only [ComputePodStatus]
  rw [hn, hd, hph, hr, hs]
  have hstat := foldl_scanStep_restart_congr hrev
    { restarts := 0
      readyContainers := 0
      reason := if q.status.reason ≠ "" then q.status.reason else q.status.phase }
    { restarts := 0
      readyContainers := 0
      reason := if q.status.reason ≠ "" then q.status.reason else q.status.phase }
    rfl rfl
  rw [hstat.1, hstat.2]

/-- C10 (witness): the two fixture pods differing only in restart counts
derive the same status. -/
theorem C10_witness :
    ComputePodStatus podWaitingPair = ComputePodStatus podWaitingPairRestarts :=
  C10_theorem podWaitingPair podWaitingPairRestarts
    ⟨rfl, rfl, rfl, rfl, rfl,
      List.Forall₂.cons ⟨rfl, rfl⟩ (List.Forall₂.cons ⟨rfl, rfl⟩ List.Forall₂.nil)⟩

/-! ### C8: splitting a qualified name on dots -/

/-- Splitting never produces an empty list of segments. -/
theorem splitOnDot_ne_nil (l : List Char) : splitOnDot l ≠ [] := by
  cases l with
  | nil => simp [splitOnDot]
  | cons c rest =>
    simp only [splitOnDot]
    repeat' split
    all_goals simp

/-- Splitting yields a single segment exactly for dot-free input, and the
segment is the input itself. -/
theorem splitOnDot_single (l : List Char) :
    ∀ x : List Char, splitOnDot l = [x] ↔ (l = x ∧ '.' ∉ x) := by
  induction l with
  | nil =>
    intro x
    simp only [splitOnDot]
    constructor
    · intro h
      injection h with h1 _
      exact ⟨h1, by rw [← h1]; simp⟩
    · rintro ⟨rfl, _⟩
      rfl
  | cons c rest ih =>
    intro x
    simp only [splitOnDot]
    by_cases hc : c = '.'
    · subst hc
      rw [if_pos rfl]
      constructor
      · intro h
        injection h with _ h2
        exact absurd h2 (splitOnDot_ne_nil rest)
      · rintro ⟨rfl, hmem⟩
        exact absurd (List.mem_cons_self _ _) hmem
    · rw [if_neg hc]
      cases hsp : splitOnDot rest with
      | nil => exact absurd hsp (splitOnDot_ne_nil rest)
      | cons s ss =>
        constructor
        · intro h
          injection h with h1 h2
          subst h2
          obtain ⟨hr, hm⟩ := (ih s).mp hsp
          subst hr
          refine ⟨h1.symm ▸ rfl, ?_⟩
          rw [← h1]
          intro hmem
          rcases List.mem_cons.mp hmem with h | h
          · exact hc h.symm
          · exact hm h
        · rintro ⟨rfl, hm⟩
          have hrest : splitOnDot rest = [rest] :=
            (ih rest).mpr ⟨rfl, fun hmem => hm (List.mem_cons_of_mem _ hmem)⟩
          rw [hsp] at hrest
          injection hrest with f1 f2
          rw [f1, f2]
  
/-- Splitting yields exactly two segments `a` and `b` exactly when the
input is `a ++ "." ++ b` with `a` and `b` dot-free. -/
theorem splitOnDot_pair (l : List Char) :
    ∀ a b : List Char,
      splitOnDot l = [a, b] ↔ (l = a ++ '.' :: b ∧ '.' ∉ a ∧ '.' ∉ b) := by
  induction l with
  | nil =>
    intro a b
    simp only [splitOnDot]
    constructor
    · intro h
      injection h with _ h2
      exact absurd h2 (by simp)
    · rintro ⟨heq, -, -⟩
      exact absurd heq (by simp)
  | cons c rest ih =>
    intro a b
    simp only [splitOnDot]
    by_cases hc : c = '.'
    · subst hc
      rw [if_pos rfl]
      constructor
      · intro h
        injection h with h1 h2
        obtain ⟨hr, hm⟩ := (splitOnDot_single rest b).mp h2
        subst hr
        exact ⟨by rw [← h1, List.nil_append], by rw [← h1]; simp, hm⟩
      · rintro ⟨heq, hma, hmb⟩
        cases a with
        | nil =>
          simp only [List.nil_append] at heq
          injection heq with _ h2
          rw [(splitOnDot_single rest b).mpr ⟨h2, hmb⟩]
        | cons a0 a' =>
          injection heq with e1 _
          exact absurd (List.mem_cons.mpr (Or.inl e1)) hma
    · rw [if_neg hc]
      cases hsp : splitOnDot rest with
      | nil => exact absurd hsp (splitOnDot_ne_nil rest)
      | cons s ss =>
        constructor
        · intro h
          injection h with h1 h2
          have hrest : splitOnDot rest = [s, b] := by rw [hsp, h2]
          obtain ⟨hr, hma', hmb⟩ := (ih s b).mp hrest
          subst hr
          refine ⟨by rw [← h1]; rfl, ?_, hmb⟩
          rw [← h1]
          intro hmem
          rcases List.mem_cons.mp hmem with h | h
          · exact hc h.symm
          · exact hma' h
        · rintro ⟨heq, hma, hmb⟩
          cases a with
          | nil =>
            simp only [List.nil_append] at heq
            injection heq with e1 _
            exact absurd e1 hc
          | cons a0 a' =>
            injection heq with e1 e2
            have hma' : '.' ∉ a' := fun hm => hma (List.mem_cons_of_mem _ hm)
            have hsp' : splitOnDot rest = [a', b] := (ih a' b).mpr ⟨e2, hma', hmb⟩
            rw [hsp] at hsp'
            injection hsp' with f1 f2
            rw [e1, f1, f2]

/-- C8: the parser succeeds returning `(namespace, name)` exactly when the
input consists of two dot-free segments (possibly empty) around a single
dot, and fails otherwise; in particular `"ns.name"` parses to
`("ns", "name")` while `"bad"` and `"a.b.c"` fail, and by the
characterization these are the only failure shapes. -/
theorem C8_theorem :
    (∀ v ns n : List Char,
      SplitNamespaceAndNameByDot v = some (ns, n) ↔
        (v = ns ++ '.' :: n ∧ '.' ∉ ns ∧ '.' ∉ n)) ∧
    SplitNamespaceAndNameByDot ['n', 's', '.', 'n', 'a', 'm', 'e'] =
      some (['n', 's'], ['n', 'a', 'm', 'e']) ∧
    SplitNamespaceAndNameByDot ['b', 'a', 'd'] = none ∧
    SplitNamespaceAndNameByDot ['a', '.', 'b', '.', 'c'] = none := by
  refine ⟨?_, by decide, by decide, by decide⟩
  intro v ns n
  constructor
  · intro h
    unfold SplitNamespaceAndNameByDot at h
    split at h
    · next a b heq =>
      injection h with h1
      injection h1 with ha hb
      rw [← ha, ← hb]
      exact (splitOnDot_pair v a b).mp heq
    · exact absurd h (by simp)
  · intro h
    have hsp := (splitOnDot_pair v ns n).mpr h
    unfold SplitNamespaceAndNameByDot
    rw [hsp]

/-- C8 (witness): the characterization applied at the input `"a.b"`. -/
theorem C8_witness :
    SplitNamespaceAndNameByDot ['a', '.', 'b'] = some (['a'], ['b']) :=
  (C8_theorem.1 ['a', '.', 'b'] ['a'] ['b']).mpr (by decide)

/-! ### C9: the replica policy -/

/-- C9: replicas default to the declared count (0 when absent) with no
node affinity when the explicit node-name list is empty; a non-empty
explicit node-name list overrides replicas with its length and requires
node affinity, and node affinity is required exactly then. -/
theorem C9_theorem (lb : LoadBalancer) :
    (lb.spec.nodes.names = [] → lb.spec.nodes.replicas = none →
      CalculateReplicas lb = (0, false)) ∧
    (lb.spec.nodes.names = [] → ∀ r, lb.spec.nodes.replicas = some r →
      CalculateReplicas lb = (r, false)) ∧
    (lb.spec.nodes.names ≠ [] →
      CalculateReplicas lb = ((lb.spec.nodes.names.length : Int), true)) ∧
    ((CalculateReplicas lb).2 = true ↔ lb.spec.nodes.names ≠ []) := by
  refine ⟨?_, ?_, ?_, ?_⟩
  · intro h1 h2
    simp [CalculateReplicas, h1, h2]
  · intro h1 r h2
    simp [CalculateReplicas, h1, h2]
  · intro h1
    simp [CalculateReplicas, h1]
  · by_cases h1 : lb.spec.nodes.names = [] <;> simp [CalculateReplicas, h1]

/-- C9 (witness): the two worked examples of the spec,
`resolve({DesiredCount: 3, ExplicitNodeNames: []}) = (3, false)` and
`resolve({DesiredCount: 3, ExplicitNodeNames: ["a","b"]}) = (2, true)`. -/
theorem C9_witness :
    CalculateReplicas { spec := { nodes := { replicas := some 3, names := [] } } } =
      (3, false) ∧
    CalculateReplicas { spec := { nodes := { replicas := some 3, names := [r"a", r"b"] } } } =
      (2, true) :=
  ⟨(C9_theorem _).2.1 rfl 3 rfl, (C9_theorem _).2.2.1 (by decide)⟩

/-! ### Comparator infrastructure: the by-name scan under distinct names -/

/-- Replacing a position of a list by the element already there is the
identity. -/
theorem set_getElem_eq_self {α : Type} (l : List α) (i : Nat) (h : i < l.length) :
    l.set i (l[i]) = l := by
  induction l generalizing i with
  | nil => simp at h
  | cons a t ih =>
    cases i with
    | zero => rfl
    | succ j =>
      simp only [List.set_cons_succ, List.getElem_cons_succ]
      rw [ih j (by simpa using h)]

/-- With pairwise-distinct names, the first name match found in the list is
the unique member carrying that name. -/
theorem find?_name_unique {l : List lbapi.PodStatus} (hl : nodupNames l)
    {x : lbapi.PodStatus} {n : String} (hx : x ∈ l) (hn : x.name = n) :
    l.find? (fun bs => n == bs.name) = some x := by
  induction l with
  | nil => cases hx
  | cons c t ih =>
    unfold nodupNames at hl
    rw [List.map_cons, List.nodup_cons] at hl
    rcases List.mem_cons.mp hx with rfl | hx'
    · exact List.find?_cons_of_pos _ (by simp [hn])
    · have hbeq : (n == c.name) = false := by
        rw [beq_eq_false_iff_ne]
        intro hnc
        exact hl.1 (hnc ▸ hn ▸ List.mem_map_of_mem lbapi.PodStatus.name hx')
      have hstep : List.find? (fun bs => n == bs.name) (c :: t) =
          List.find? (fun bs => n == bs.name) t := by
        simp [List.find?_cons, hbeq]
      rw [hstep]
      exact ih hl.2 hx'

/-- With pairwise-distinct names, the by-name lookup is invariant under
permutation of the searched list. -/
theorem find?_name_perm {l l' : List lbapi.PodStatus} (hl : nodupNames l)
    (hp : l.Perm l') (n : String) :
    l.find? (fun bs => n == bs.name) = l'.find? (fun bs => n == bs.name) := by
  have hl' : nodupNames l' := ((hp.map lbapi.PodStatus.name).nodup_iff).mp hl
  by_cases hex : ∃ x ∈ l, x.name = n
  · obtain ⟨x, hx, hn⟩ := hex
    rw [find?_name_unique hl hx hn, find?_name_unique hl' (hp.subset hx) hn]
  · have h1 : l.find? (fun bs => n == bs.name) = none :=
      List.find?_eq_none.mpr fun x hx hpx => hex ⟨x, hx, (beq_iff_eq.mp hpx).symm⟩
    have h2 : l'.find? (fun bs => n == bs.name) = none :=
      List.find?_eq_none.mpr fun x hx hpx =>
        hex ⟨x, hp.symm.subset hx, (beq_iff_eq.mp hpx).symm⟩
    rw [h1, h2]

/-- Unfolding of `PodStatusesEqual` into its three checks. -/
theorem PodStatusesEqual_eq_true_iff (a b : lbapi.PodStatuses) :
    PodStatusesEqual a b = true ↔
      (a.statuses.length = b.statuses.length ∧
       ({ a with statuses := [] } : lbapi.PodStatuses) = { b with statuses := [] } ∧
       ∀ as ∈ a.statuses, matchByName b.statuses as = true) := by
  unfold PodStatusesEqual
  by_cases h1 : a.statuses.length = b.statuses.length
  · by_cases h2 : ({ a with statuses := [] } : lbapi.PodStatuses) = { b with statuses := [] }
    · simp [h1, h2, List.all_eq_true]
    · simp [h1, h2]
  · simp [h1]

/-- A successful by-name match means the lookup found the element itself. -/
theorem matchByName_eq_true {bS : List lbapi.PodStatus} {as : lbapi.PodStatus}
    (h : matchByName bS as = true) :
    bS.find? (fun bs => as.name == bs.name) = some as := by
  unfold matchByName at h
  split at h
  · next bs heq =>
    rw [heq]
    exact congrArg some (of_decide_eq_true h).symm
  · cases h

/-- Conversely, a lookup returning the element itself is a successful
by-name match. -/
theorem matchByName_of_find? {bS : List lbapi.PodStatus} {as : lbapi.PodStatus}
    (h : bS.find? (fun bs => as.name == bs.name) = some as) :
    matchByName bS as = true := by
  unfold matchByName
  rw [h]
  simp

/-- Under distinct names on the left side, a successful comparison means
the two status lists are permutations of each other. -/
theorem perm_of_PodStatusesEqual {a b : lbapi.PodStatuses}
    (ha : nodupNames a.statuses)
    (h : PodStatusesEqual a b = true) : a.statuses.Perm b.statuses := by
  obtain ⟨hlen, -, hall⟩ := (PodStatusesEqual_eq_true_iff a b).mp h
  have hsub : a.statuses ⊆ b.statuses := fun x hx => by
    have hf := matchByName_eq_true (hall x hx)
    exact List.mem_of_find?_eq_some hf
  have hnodup : a.statuses.Nodup := List.Nodup.of_map lbapi.PodStatus.name ha
  exact (List.subperm_of_subset hnodup hsub).perm_of_length_le (le_of_eq hlen.symm)

/-! ### C5: order-insensitivity of the comparator -/

/-- C5: with pairwise-distinct worker names inside each aggregate,
permuting the worker-status list of either side (or both) leaves the
comparator's verdict unchanged. -/
theorem C5_theorem (a b : lbapi.PodStatuses) (sa sb : List lbapi.PodStatus)
    (_ha : nodupNames a.statuses) (hb : nodupNames b.statuses)
    (hpa : a.statuses.Perm sa) (hpb : b.statuses.Perm sb) :
    PodStatusesEqual { a with statuses := sa } { b with statuses := sb } =
      PodStatusesEqual a b := by
  have hmatch : ∀ as : lbapi.PodStatus, matchByName sb as = matchByName b.statuses as := by
    intro as
    unfold matchByName
    rw [find?_name_perm hb hpb as.name]
  rw [Bool.eq_iff_iff, PodStatusesEqual_eq_true_iff, PodStatusesEqual_eq_true_iff]
  constructor
  · rintro ⟨h1, h2, h3⟩
    refine ⟨hpa.length_eq.trans (h1.trans hpb.length_eq.symm), h2, ?_⟩
    intro as hx
    rw [← hmatch as]
    exact h3 as (hpa.subset hx)
  · rintro ⟨h1, h2, h3⟩
    refine ⟨hpa.length_eq.symm.trans (h1.trans hpb.length_eq), h2, ?_⟩
    intro as hx
    show matchByName sb as = true
    rw [hmatch as]
    exact h3 as (hpa.symm.subset hx)

/-- C5 (witness): swapping the two workers of `aggTwo` does not change the
verdict against `aggTwo` itself. -/
theorem C5_witness :
    PodStatusesEqual aggTwoSwapped aggTwo = PodStatusesEqual aggTwo aggTwo :=
  C5_theorem aggTwo aggTwo [workerN2, workerN1] aggTwo.statuses
    (by unfold nodupNames; decide) (by unfold nodupNames; decide)
    (List.Perm.swap workerN2 workerN1 []) (List.Perm.refl _)

/-! ### C6: sensitivity to a single worker-field change -/

/-- A single-field change produces a distinct record with the same name. -/
theorem singleFieldChange_ne {w w' : lbapi.PodStatus} (h : singleFieldChange w w') :
    w' ≠ w ∧ w'.name = w.name := by
  obtain ⟨hn, -, -, hc⟩ := h
  refine ⟨?_, hn⟩
  rintro rfl
  rcases hc with ⟨h1, -, -⟩ | ⟨-, h1, -⟩ | ⟨-, -, h1⟩ <;> exact h1 rfl

/-- C6 (counterexample): without the distinct-name invariant the claim
fails: the two-copy aggregate `[w, w]` compares equal to `[w, x]` for an
arbitrary same-named `x`, and changing `x`'s `Ready` field leaves the
comparator's verdict `true`. -/
theorem C6_counterexample :
    PodStatusesEqual aggDupLeft aggDupRight = true ∧
    singleFieldChange workerN1Clash workerN1ClashReady ∧
    aggDupRightChanged.statuses = aggDupRight.statuses.set 1 workerN1ClashReady ∧
    PodStatusesEqual aggDupLeft aggDupRightChanged = true := by
  refine ⟨by decide, ⟨rfl, rfl, rfl, Or.inl ⟨by decide, rfl, rfl⟩⟩, by decide, by decide⟩

/-- C6 (amended): for aggregates with pairwise-distinct worker names that
the comparator judges equal, changing a single worker's `Ready`, `Reason`
or `NodeName` in either aggregate makes the comparator return `false`. -/
theorem C6_theorem (a b : lbapi.PodStatuses)
    (ha : nodupNames a.statuses) (hb : nodupNames b.statuses)
    (heq : PodStatusesEqual a b = true) (i : Nat) (w' : lbapi.PodStatus) :
    (∀ h : i < a.statuses.length, singleFieldChange a.statuses[i] w' →
      PodStatusesEqual { a with statuses := a.statuses.set i w' } b = false) ∧
    (∀ h : i < b.statuses.length, singleFieldChange b.statuses[i] w' →
      PodStatusesEqual a { b with statuses := b.statuses.set i w' } = false) := by
  obtain ⟨hlen, hsc, hall⟩ := (PodStatusesEqual_eq_true_iff a b).mp heq
  constructor
  · intro h hch
    obtain ⟨hne, hname⟩ := singleFieldChange_ne hch
    have hfind : b.statuses.find? (fun bs => (a.statuses[i]).name == bs.name) =
        some (a.statuses[i]) :=
      matchByName_eq_true (hall _ (List.getElem_mem h))
    apply Bool.eq_false_iff.mpr
    intro htrue
    obtain ⟨-, -, hall'⟩ := (PodStatusesEqual_eq_true_iff _ _).mp htrue
    have hm' := hall' w' (List.mem_set a.statuses i h w')
    have hfind' := matchByName_eq_true hm'
    rw [hname, hfind] at hfind'
    injection hfind' with hww
    exact hne hww.symm
  · intro h hch
    obtain ⟨hne, hname⟩ := singleFieldChange_ne hch
    have hperm := perm_of_PodStatusesEqual ha heq
    have hb' : nodupNames (b.statuses.set i w') := by
      unfold nodupNames at hb ⊢
      rw [List.map_set]
      have hi : i < (b.statuses.map lbapi.PodStatus.name).length := by simpa using h
      have hgn : w'.name = (b.statuses.map lbapi.PodStatus.name)[i] := by
        rw [List.getElem_map]
        exact hname
      rw [hgn, set_getElem_eq_self (b.statuses.map lbapi.PodStatus.name) i hi]
      exact hb
    have hfind' : (b.statuses.set i w').find? (fun bs => (b.statuses[i]).name == bs.name) =
        some w' :=
      find?_name_unique hb' (List.mem_set b.statuses i h w') hname
    apply Bool.eq_false_iff.mpr
    intro htrue
    obtain ⟨-, -, hall'⟩ := (PodStatusesEqual_eq_true_iff _ _).mp htrue
    have hm := hall' _ (hperm.symm.subset (List.getElem_mem h))
    have hf : (b.statuses.set i w').find? (fun bs => (b.statuses[i]).name == bs.name) =
        some (b.statuses[i]) := matchByName_eq_true hm
    rw [hfind'] at hf
    injection hf with hww
    exact hne hww

/-- C6 (witness): flipping `Ready` of the first worker on either side of
the self-comparison of `aggTwo` makes the comparator return `false`. -/
theorem C6_witness :
    PodStatusesEqual
      { aggTwo with statuses := aggTwo.statuses.set 0 { workerN1 with ready := false } }
      aggTwo = false ∧
    PodStatusesEqual aggTwo
      { aggTwo with statuses := aggTwo.statuses.set 0 { workerN1 with ready := false } } =
      false :=
  ⟨(C6_theorem aggTwo aggTwo (by unfold nodupNames; decide) (by unfold nodupNames; decide)
      (by decide) 0 { workerN1 with ready := false }).1 (by decide)
      ⟨rfl, rfl, rfl, Or.inl ⟨by decide, rfl, rfl⟩⟩,
   (C6_theorem aggTwo aggTwo (by unfold nodupNames; decide) (by unfold nodupNames; decide)
      (by decide) 0 { workerN1 with ready := false }).2 (by decide)
      ⟨rfl, rfl, rfl, Or.inl ⟨by decide, rfl, rfl⟩⟩⟩

/-! ### C7: reflexivity of the aggregate comparators -/

/-- Under distinct worker names, the worker-set comparison is reflexive. -/
theorem PodStatusesEqual_refl {s : lbapi.PodStatuses} (hs : nodupNames s.statuses) :
    PodStatusesEqual s s = true := by
  rw [PodStatusesEqual_eq_true_iff]
  exact ⟨rfl, rfl, fun as hx => matchByName_of_find? (find?_name_unique hs hx rfl)⟩

/-- C7 (counterexample): reflexivity fails as stated for an aggregate whose
worker list repeats a name with different content. -/
theorem C7_counterexample : ProxyStatusEqual proxyDup proxyDup = false := by
  decide

/-- C7 (amended): for every aggregate of either sibling kind whose worker
names are pairwise distinct, the structural comparator applied to the
aggregate and itself returns `true`. -/
theorem C7_theorem (x : lbapi.ProxyStatus) (y : lbapi.IpvsdrProviderStatus)
    (hx : nodupNames x.podStatuses.statuses) (hy : nodupNames y.podStatuses.statuses) :
    ProxyStatusEqual x x = true ∧ IpvsdrProviderStatusEqual y y = true := by
  constructor
  · unfold ProxyStatusEqual
    rw [PodStatusesEqual_refl hx]
    simp
  · unfold IpvsdrProviderStatusEqual
    rw [PodStatusesEqual_refl hy]
    simp

/-- C7 (witness): reflexivity at the concrete two-worker aggregates. -/
theorem C7_witness :
    ProxyStatusEqual proxyTwo proxyTwo = true ∧
    IpvsdrProviderStatusEqual ipvsdrTwo ipvsdrTwo = true :=
  C7_theorem proxyTwo ipvsdrTwo (by unfold nodupNames; decide) (by unfold nodupNames; decide)
